import Mathlib

/-!
Verification of the ApiPosture core pipeline: data model, authorization
classification, route normalization, rule engine, registry and suppression
matching, shallowly embedded from the TypeScript sources.
-/

/-- The quote character (U+0027), written via its code point. -/
def sqc : Char := Char.ofNat 39

/-- The double-quote character (U+0022). -/
def dqc : Char := Char.ofNat 34

/-- The backslash character (U+005C). -/
def bslc : Char := Char.ofNat 92

/-- Security classification enum from src/core/models/security-classification.ts. -/
inductive SecurityClassification where
  | Public
  | Authenticated
  | RoleRestricted
  | PolicyRestricted
deriving DecidableEq, Repr

/-- Severity enum from src/core/models/severity.ts. -/
inductive Severity where
  | Info
  | Low
  | Medium
  | High
  | Critical
deriving DecidableEq, Repr

/-- HttpMethod enum from src/core/models/http-method.ts. -/
inductive HttpMethod where
  | GET
  | POST
  | PUT
  | DELETE
  | PATCH
  | OPTIONS
  | HEAD
  | ALL
deriving DecidableEq, Repr

/-- The string value of an HttpMethod enum member. -/
def methodString : HttpMethod → String
  | .GET => "GET"
  | .POST => "POST"
  | .PUT => "PUT"
  | .DELETE => "DELETE"
  | .PATCH => "PATCH"
  | .OPTIONS => "OPTIONS"
  | .HEAD => "HEAD"
  | .ALL => "ALL"

/-- isWriteMethod from src/core/models/http-method.ts: membership in the
writeMethods set (POST, PUT, DELETE, PATCH). -/
def isWriteMethod : HttpMethod → Bool
  | .POST => true
  | .PUT => true
  | .DELETE => true
  | .PATCH => true
  | _ => false

/-- EndpointType enum from src/core/models/endpoint-type.ts. -/
inductive EndpointType where
  | Express
  | NestJS
  | Fastify
  | Koa
deriving DecidableEq, Repr

/-- SourceLocation from src/core/models/source-location.ts. -/
structure SourceLocation where
  filePath : String
  line : Nat
  column : Nat
deriving DecidableEq, Repr

/-- AuthorizationInfo from src/core/models/authorization-info.ts. -/
structure AuthorizationInfo where
  isAuthenticated : Bool
  isExplicitlyPublic : Bool
  roles : List String
  policies : List String
  middlewareChain : List String
  guardNames : List String
  classification : SecurityClassification
deriving DecidableEq, Repr

/-- createDefaultAuthorizationInfo from authorization-info.ts. -/
def createDefaultAuthorizationInfo : AuthorizationInfo where
  isAuthenticated := false
  isExplicitlyPublic := false
  roles := []
  policies := []
  middlewareChain := []
  guardNames := []
  classification := .Public

/-- determineClassification from authorization-info.ts. The source receives
the record minus its classification field (Omit); here the whole record is
passed and the classification field is simply never read. -/
def determineClassification (auth : AuthorizationInfo) : SecurityClassification :=
  if auth.policies.length > 0 then .PolicyRestricted
  else if auth.roles.length > 0 then .RoleRestricted
  else if auth.isAuthenticated then .Authenticated
  else .Public

/-- Endpoint from src/core/models/endpoint.ts. -/
structure Endpoint where
  route : String
  method : HttpMethod
  handlerName : String
  controllerName : Option String
  type : EndpointType
  location : SourceLocation
  authorization : AuthorizationInfo
deriving DecidableEq, Repr

/-- Finding from src/core/models/finding.ts. The presentation-only
`recommendation` string is not modelled: no rule condition, the engine and
the suppression matcher never read it. All other fields are kept. -/
structure Finding where
  ruleId : String
  ruleName : String
  severity : Severity
  message : String
  endpoint : Endpoint
  location : SourceLocation
  suppressed : Bool
  suppressionReason : Option String
deriving DecidableEq, Repr

/-- createFinding from finding.ts: suppressed defaults to false,
suppressionReason stays absent. -/
def createFinding (ruleId ruleName : String) (severity : Severity) (message : String)
    (endpoint : Endpoint) (location : SourceLocation) : Finding :=
  { ruleId := ruleId, ruleName := ruleName, severity := severity, message := message,
    endpoint := endpoint, location := location, suppressed := false,
    suppressionReason := none }

/-- C1: `classification` as computed by determineClassification equals the
spec's cascade — PolicyRestricted if policies non-empty, else RoleRestricted
if roles non-empty, else Authenticated if isAuthenticated, else Public — and
the result never depends on isExplicitlyPublic; in particular
roles = ["x"], policies = [] gives RoleRestricted for every value of
isAuthenticated and isExplicitlyPublic. -/
theorem classification_matches_spec_cascade :
    (∀ a : AuthorizationInfo,
      determineClassification a =
        (if a.policies ≠ [] then .PolicyRestricted
         else if a.roles ≠ [] then .RoleRestricted
         else if a.isAuthenticated then .Authenticated
         else .Public)) ∧
    (∀ a : AuthorizationInfo, ∀ b1 b2 : Bool,
      determineClassification { a with isExplicitlyPublic := b1 } =
        determineClassification { a with isExplicitlyPublic := b2 }) ∧
    (∀ ia ip : Bool, ∀ cl : SecurityClassification,
      determineClassification
        { isAuthenticated := ia, isExplicitlyPublic := ip, roles := ["x"],
          policies := [], middlewareChain := [], guardNames := [],
          classification := cl } = .RoleRestricted) := by
  refine ⟨fun a => ?_, fun a b1 b2 => rfl, fun ia ip cl => rfl⟩
  simp only [determineClassification]
  rcases a with ⟨ia, ip, roles, policies, mw, gn, cl⟩
  cases policies <;> cases roles <;> simp

/-- One step of the JS `path.replace(/\/+/g, '/')`: every run of consecutive
slashes becomes a single slash (a slash directly followed by another slash is
dropped). -/
def collapseSlashes : List Char → List Char
  | [] => []
  | [c] => [c]
  | a :: b :: t =>
    if a = '/' ∧ b = '/' then collapseSlashes (b :: t)
    else a :: collapseSlashes (b :: t)

/-- `if (!path.startsWith('/')) path = '/' + path`. -/
def ensureLeadingSlash (l : List Char) : List Char :=
  if l.head? = some '/' then l else '/' :: l

/-- `if (path.length > 1 && path.endsWith('/')) path = path.slice(0, -1)`. -/
def dropTrailingSlash (l : List Char) : List Char :=
  if l.length > 1 ∧ l.getLast? = some '/' then l.dropLast else l

/-- normalizePath, the identical private method of ExpressDiscoverer,
FastifyDiscoverer and KoaDiscoverer: prefix with '/', collapse duplicate
slashes, strip a trailing slash except for the root. -/
def normalizePath (s : String) : String :=
  .mk (dropTrailingSlash (collapseSlashes (ensureLeadingSlash s.data)))

/-- The route-joining part of NestJSDiscoverer.buildRoute: controller path
with a leading slash (or "/" when empty), then the method path with a
leading slash appended (replacing a root-only controller route). -/
def joinRoute (controllerPath methodPath : String) : List Char :=
  let r1 : List Char :=
    if controllerPath.data ≠ [] then
      (if controllerPath.data.head? = some '/' then controllerPath.data
       else '/' :: controllerPath.data)
    else ['/']
  if methodPath.data ≠ [] then
    (let nm := if methodPath.data.head? = some '/' then methodPath.data
               else '/' :: methodPath.data
     if r1 = ['/'] then nm else r1 ++ nm)
  else r1

/-- NestJSDiscoverer.buildRoute: join the controller path and the method
path, then normalize multiple slashes, ensure a single leading slash, and
remove a trailing slash except for the root. -/
def buildRoute (controllerPath methodPath : String) : String :=
  .mk (dropTrailingSlash (ensureLeadingSlash
    (collapseSlashes (joinRoute controllerPath methodPath))))

/-- No two adjacent slashes anywhere in the list. -/
def noDoubledSlash : List Char → Bool
  | a :: b :: t => (!(a = '/' && b = '/')) && noDoubledSlash (b :: t)
  | _ => true

/-- Acceptor for `[^/]+(/[^/]+)*` when `needFirst` is true, and for the same
language continued from inside a segment (`[^/]*(/[^/]+)*`) when false. -/
def segAccept : Bool → List Char → Bool
  | needFirst, [] => !needFirst
  | needFirst, c :: rest =>
    if c = '/' then (!needFirst) && segAccept true rest
    else segAccept false rest

/-- Acceptor for the route shape regex of the spec, `^/([^/]+(/[^/]+)*)?$`. -/
def routeRegexAccepts (s : String) : Bool :=
  match s.data with
  | '/' :: rest => rest.isEmpty || segAccept true rest
  | _ => false

theorem collapseSlashes_head? : ∀ l : List Char, (collapseSlashes l).head? = l.head?
  | [] => rfl
  | [_] => rfl
  | a :: b :: t => by
    rw [collapseSlashes]
    split
    · next h => rw [collapseSlashes_head? (b :: t)]; simp [h.1, h.2]
    · rfl

theorem noDoubledSlash_collapseSlashes :
    ∀ l : List Char, noDoubledSlash (collapseSlashes l) = true
  | [] => rfl
  | [_] => rfl
  | a :: b :: t => by
    rw [collapseSlashes]
    split
    · exact noDoubledSlash_collapseSlashes (b :: t)
    · next h =>
      have ih := noDoubledSlash_collapseSlashes (b :: t)
      have hh := collapseSlashes_head? (b :: t)
      cases hc : collapseSlashes (b :: t) with
      | nil => simp [noDoubledSlash]
      | cons x xs =>
        have hx : x = b := by rw [hc] at hh; simpa using hh
        rw [hc] at ih
        rw [noDoubledSlash, Bool.and_eq_true]
        refine ⟨?_, ih⟩
        subst hx
        by_cases ha : a = '/' <;> by_cases hb : x = '/' <;> simp_all

theorem noDoubledSlash_dropLast :
    ∀ l : List Char, noDoubledSlash l = true → noDoubledSlash l.dropLast = true
  | [], _ => rfl
  | [_], _ => rfl
  | a :: b :: t, h => by
    have h1 : noDoubledSlash (b :: t) = true := by
      rw [noDoubledSlash, Bool.and_eq_true] at h; exact h.2
    have ih := noDoubledSlash_dropLast (b :: t) h1
    cases t with
    | nil => simp [noDoubledSlash]
    | cons c t' =>
      have hd : (a :: b :: c :: t').dropLast = a :: (b :: c :: t').dropLast := rfl
      rw [hd]
      have hd2 : (b :: c :: t').dropLast = b :: (c :: t').dropLast := rfl
      rw [hd2] at ih ⊢
      rw [noDoubledSlash, Bool.and_eq_true] at h ⊢
      exact ⟨h.1, ih⟩

theorem getLast?_dropLast_ne_slash :
    ∀ l : List Char, noDoubledSlash l = true → l.getLast? = some '/' →
      1 < l.length → l.dropLast.getLast? ≠ some '/'
  | [], _, hl, _ => by simp at hl
  | [_], _, _, hn => by simp at hn
  | a :: b :: t, h, hl, _ => by
    cases t with
    | nil =>
      have hb : b = '/' := by simpa using hl
      have ha : a ≠ '/' := by
        intro hc
        rw [noDoubledSlash] at h
        simp [hc, hb] at h
      simpa using ha
    | cons c t' =>
      have h1 : noDoubledSlash (b :: c :: t') = true := by
        rw [noDoubledSlash, Bool.and_eq_true] at h; exact h.2
      have hl1 : (b :: c :: t').getLast? = some '/' := by
        simpa [List.getLast?_cons_cons] using hl
      have ih := getLast?_dropLast_ne_slash (b :: c :: t') h1 hl1 (by simp)
      have hd : (a :: b :: c :: t').dropLast = a :: (b :: c :: t').dropLast := rfl
      rw [hd]
      have hne : (b :: c :: t').dropLast ≠ [] := by simp
      cases hdl : (b :: c :: t').dropLast with
      | nil => exact absurd hdl hne
      | cons x xs =>
        rw [hdl] at ih
        simpa [List.getLast?_cons_cons] using ih

theorem segAccept_of_noDoubledSlash :
    ∀ (rest : List Char) (prev : Char), noDoubledSlash (prev :: rest) = true →
      (prev :: rest).getLast? ≠ some '/' → segAccept (prev = '/') rest = true := by
  intro rest
  induction rest with
  | nil =>
    intro prev _ hlast
    have : prev ≠ '/' := by simpa using hlast
    simp [segAccept, this]
  | cons c rest' ih =>
    intro prev h hlast
    have h1 : noDoubledSlash (c :: rest') = true := by
      rw [noDoubledSlash, Bool.and_eq_true] at h; exact h.2
    have hlast1 : (c :: rest').getLast? ≠ some '/' := by
      simpa [List.getLast?_cons_cons] using hlast
    have ihc := ih c h1 hlast1
    by_cases hc : c = '/'
    · have hprev : prev ≠ '/' := by
        intro hp
        rw [noDoubledSlash] at h
        simp [hp, hc] at h
      rw [segAccept, if_pos hc, Bool.and_eq_true]
      constructor
      · simp [hprev]
      · simpa [hc] using ihc
    · rw [segAccept, if_neg hc]
      simpa [hc] using ihc

theorem routeRegexAccepts_of_shape (l : List Char)
    (hhead : l.head? = some '/') (hnds : noDoubledSlash l = true)
    (hlast : l = ['/'] ∨ l.getLast? ≠ some '/') :
    routeRegexAccepts (.mk l) = true := by
  cases l with
  | nil => simp at hhead
  | cons a rest =>
    have ha : a = '/' := by simpa using hhead
    subst ha
    rw [routeRegexAccepts]
    cases rest with
    | nil => rfl
    | cons c rest' =>
      have hl : ('/' :: c :: rest').getLast? ≠ some '/' := by
        rcases hlast with h | h
        · simp at h
        · exact h
      have := segAccept_of_noDoubledSlash (c :: rest') '/' hnds hl
      simp only [List.isEmpty_cons, Bool.false_or]
      simpa using this

theorem routeRegexAccepts_dropTrailing (l : List Char)
    (hhead : l.head? = some '/') (hnds : noDoubledSlash l = true) :
    routeRegexAccepts (.mk (dropTrailingSlash l)) = true := by
  rw [dropTrailingSlash]
  split
  · next h =>
    obtain ⟨hlen, hlast⟩ := h
    apply routeRegexAccepts_of_shape
    · cases l with
      | nil => simp at hhead
      | cons a t =>
        cases t with
        | nil => simp at hlen
        | cons b t' => simpa using hhead
    · exact noDoubledSlash_dropLast l hnds
    · exact Or.inr (getLast?_dropLast_ne_slash l hnds hlast hlen)
  · next h =>
    apply routeRegexAccepts_of_shape l hhead hnds
    rw [not_and_or] at h
    rcases h with h | h
    · left
      cases l with
      | nil => simp at hhead
      | cons a t =>
        cases t with
        | nil => simpa using hhead
        | cons b t' => simp at h
    · exact Or.inr h

theorem routeRegexAccepts_ensure_nds (r : List Char) (h : noDoubledSlash r = true) :
    routeRegexAccepts (.mk (dropTrailingSlash (ensureLeadingSlash r))) = true := by
  apply routeRegexAccepts_dropTrailing
  · rw [ensureLeadingSlash]
    split
    · assumption
    · rfl
  · rw [ensureLeadingSlash]
    split
    · exact h
    · next hne =>
      cases r with
      | nil => rfl
      | cons x xs =>
        have hx : x ≠ '/' := by
          intro he
          exact hne (by simp [he])
        rw [noDoubledSlash, Bool.and_eq_true]
        exact ⟨by simp [hx], h⟩

/-- C2: every route produced by the shared normalizePath of the Express,
Fastify and Koa discoverers, and every route produced by
NestJSDiscoverer.buildRoute, matches `^/([^/]+(/[^/]+)*)?$`: it starts with
'/', has no repeated '/', and no trailing '/' unless it is exactly "/". -/
theorem discoverer_routes_match_shape :
    (∀ s : String, routeRegexAccepts (normalizePath s) = true) ∧
    (∀ cp mp : String, routeRegexAccepts (buildRoute cp mp) = true) := by
  constructor
  · intro s
    apply routeRegexAccepts_dropTrailing
    · rw [collapseSlashes_head?, ensureLeadingSlash]
      split
      · assumption
      · rfl
    · exact noDoubledSlash_collapseSlashes _
  · intro cp mp
    exact routeRegexAccepts_ensure_nds (collapseSlashes (joinRoute cp mp))
      (noDoubledSlash_collapseSlashes _)

/-- Bool-valued list-prefix test. -/
def listIsPrefixOf : List Char → List Char → Bool
  | [], _ => true
  | _ :: _, [] => false
  | a :: as, b :: bs => a = b && listIsPrefixOf as bs

/-- Bool-valued substring test, as JS String.includes. -/
def listContainsSub : List Char → List Char → Bool
  | [], needle => needle.isEmpty
  | a :: t, needle => listIsPrefixOf needle (a :: t) || listContainsSub t needle

/-- JS `hay.includes(needle)`. -/
def strIncludes (hay needle : String) : Bool :=
  listContainsSub hay.data needle.data

/-- JS String.toLowerCase restricted to its effect on ASCII letters (all
names and routes the sources compare are ASCII). -/
def lowerCh (c : Char) : Char :=
  if 65 ≤ c.toNat ∧ c.toNat ≤ 90 then Char.ofNat (c.toNat + 32) else c

/-- Lowercase a whole string. -/
def strLower (s : String) : String := .mk (s.data.map lowerCh)

/-- AP001 PublicWithoutExplicitIntent.evaluate
(src/rules/exposure/public-without-explicit-intent.ts). -/
def ap001Evaluate (endpoint : Endpoint) : List Finding :=
  let auth := endpoint.authorization
  if auth.classification = .Public ∧ auth.isExplicitlyPublic = false ∧
      auth.isAuthenticated = false ∧ auth.guardNames.length = 0 then
    [createFinding "AP001" "Public without explicit intent" .High
      (methodString endpoint.method ++ " " ++ endpoint.route ++
        " is publicly accessible without explicit intent")
      endpoint endpoint.location]
  else []

/-- AP002 AllowAnonymousOnWrite.evaluate
(src/rules/exposure/allow-anonymous-on-write.ts). -/
def ap002Evaluate (endpoint : Endpoint) : List Finding :=
  let auth := endpoint.authorization
  if isWriteMethod endpoint.method = true ∧ auth.isExplicitlyPublic = true then
    [createFinding "AP002" "AllowAnonymous on write operation" .High
      (methodString endpoint.method ++ " " ++ endpoint.route ++
        " is a write operation explicitly marked as public")
      endpoint endpoint.location]
  else []

/-- AP003 ControllerActionConflict.evaluate
(src/rules/consistency/controller-action-conflict.ts). -/
def ap003Evaluate (endpoint : Endpoint) : List Finding :=
  if endpoint.type ≠ .NestJS then []
  else
    let auth := endpoint.authorization
    if auth.isAuthenticated = true ∧ auth.isExplicitlyPublic = true then
      [createFinding "AP003" "Controller/action authorization conflict" .Medium
        (methodString endpoint.method ++ " " ++ endpoint.route ++
          " has @Public overriding class-level guards")
        endpoint endpoint.location]
    else []

/-- AP004 MissingAuthOnWrites.evaluate
(src/rules/consistency/missing-auth-on-writes.ts). -/
def ap004Evaluate (endpoint : Endpoint) : List Finding :=
  let auth := endpoint.authorization
  if isWriteMethod endpoint.method = true ∧ auth.classification = .Public ∧
      auth.isAuthenticated = false ∧ auth.isExplicitlyPublic = false then
    [createFinding "AP004" "Missing authentication on write operations" .Critical
      (methodString endpoint.method ++ " " ++ endpoint.route ++
        " is an unprotected write operation")
      endpoint endpoint.location]
  else []

/-- AP005 ExcessiveRoleAccess.evaluate (maxRoles = 3)
(src/rules/privilege/excessive-role-access.ts). -/
def ap005Evaluate (endpoint : Endpoint) : List Finding :=
  let roles := endpoint.authorization.roles
  if roles.length > 3 then
    [createFinding "AP005" "Excessive role access" .Low
      (methodString endpoint.method ++ " " ++ endpoint.route ++ " allows " ++
        toString roles.length ++ " roles: " ++ String.intercalate ", " roles)
      endpoint endpoint.location]
  else []

/-- The 13 weak role words of WeakRoleNaming, each pattern being a
case-insensitive whole-string match. -/
def weakRoleWords : List String :=
  ["user", "admin", "guest", "member", "moderator", "manager", "superuser",
   "root", "default", "basic", "standard", "premium", "vip"]

/-- AP006 WeakRoleNaming.evaluate (src/rules/privilege/weak-role-naming.ts). -/
def ap006Evaluate (endpoint : Endpoint) : List Finding :=
  let roles := endpoint.authorization.roles
  let weakRoles := roles.filter (fun role => weakRoleWords.contains (strLower role))
  if weakRoles.length > 0 then
    [createFinding "AP006" "Weak role naming" .Low
      (methodString endpoint.method ++ " " ++ endpoint.route ++
        " uses generic role names: " ++ String.intercalate ", " weakRoles)
      endpoint endpoint.location]
  else []

/-- The 20 sensitive keywords of SensitiveRouteKeywords. -/
def sensitiveKeywords : List String :=
  ["admin", "debug", "internal", "export", "import", "backup", "config",
   "settings", "system", "management", "dashboard", "metrics", "logs",
   "audit", "secret", "private", "hidden", "test", "dev", "staging"]

/-- AP007 SensitiveRouteKeywords.evaluate
(src/rules/surface/sensitive-route-keywords.ts). -/
def ap007Evaluate (endpoint : Endpoint) : List Finding :=
  if endpoint.authorization.classification ≠ .Public then []
  else
    let foundKeywords :=
      sensitiveKeywords.filter (fun kw => strIncludes (strLower endpoint.route) kw)
    if foundKeywords.length > 0 then
      [createFinding "AP007" "Sensitive route keywords" .Medium
        (methodString endpoint.method ++ " " ++ endpoint.route ++
          " is public but contains sensitive keywords: " ++
          String.intercalate ", " foundKeywords)
        endpoint endpoint.location]
    else []

/-- AP008 UnprotectedEndpoint.evaluate
(src/rules/surface/unprotected-endpoint.ts). -/
def ap008Evaluate (endpoint : Endpoint) : List Finding :=
  let auth := endpoint.authorization
  if auth.classification = .Public ∧ auth.middlewareChain.length = 0 ∧
      auth.guardNames.length = 0 ∧ auth.isExplicitlyPublic = false then
    [createFinding "AP008" "Unprotected endpoint" .High
      (methodString endpoint.method ++ " " ++ endpoint.route ++
        " has no middleware chain")
      endpoint endpoint.location]
  else []

/-- SecurityRule of src/rules/rule-interface.ts (description omitted:
presentation only). -/
structure SecurityRule where
  id : String
  name : String
  severity : Severity
  evaluate : Endpoint → List Finding

/-- The catalogue built by RuleEngine.initializeRules, in construction
order. -/
def allRules : List SecurityRule :=
  [⟨"AP001", "Public without explicit intent", .High, ap001Evaluate⟩,
   ⟨"AP002", "AllowAnonymous on write operation", .High, ap002Evaluate⟩,
   ⟨"AP003", "Controller/action authorization conflict", .Medium, ap003Evaluate⟩,
   ⟨"AP004", "Missing authentication on write operations", .Critical, ap004Evaluate⟩,
   ⟨"AP005", "Excessive role access", .Low, ap005Evaluate⟩,
   ⟨"AP006", "Weak role naming", .Low, ap006Evaluate⟩,
   ⟨"AP007", "Sensitive route keywords", .Medium, ap007Evaluate⟩,
   ⟨"AP008", "Unprotected endpoint", .High, ap008Evaluate⟩]

/-- The config filter of RuleEngine.initializeRules: a rule whose config has
enabled = false is dropped; catalogue order is preserved. -/
def rulesFromConfig (config : List (String × Bool)) : List SecurityRule :=
  allRules.filter (fun r => config.lookup r.id ≠ some false)

/-- The catalogue of a RuleEngine constructed without config. -/
def defaultRules : List SecurityRule := rulesFromConfig []

/-- RuleEngine.evaluate: for each endpoint, run every rule in catalogue
order and concatenate the findings. -/
def ruleEngineEvaluate (rules : List SecurityRule) (endpoints : List Endpoint) :
    List Finding :=
  endpoints.flatMap (fun endpoint => rules.flatMap (fun r => r.evaluate endpoint))

/-- The endpoint of claim C3: POST /api/orders with no middleware at all. -/
def ordersEndpoint : Endpoint where
  route := "/api/orders"
  method := .POST
  handlerName := "anonymous"
  controllerName := none
  type := .Express
  location := ⟨"app.ts", 1, 1⟩
  authorization := createDefaultAuthorizationInfo

/-- C3: POST /api/orders with empty middlewareChain, guardNames, roles and
policies, isAuthenticated = false, isExplicitlyPublic = false and
classification Public, run through the full default catalogue of 8 rules,
yields exactly the findings AP001 (High), AP004 (Critical) and AP008 (High),
in catalogue order, and no others. -/
theorem post_orders_no_middleware_findings :
    (ruleEngineEvaluate defaultRules [ordersEndpoint]).map
        (fun f => (f.ruleId, f.severity)) =
      [("AP001", .High), ("AP004", .Critical), ("AP008", .High)] := by
  rfl

/-- A decorator argument as seen through the source-file-loader helpers:
an identifier, a call expression (with the callee's identifier when it is
one), a string literal, an array literal, or any other expression. -/
inductive DecoratorArg where
  | ident (text : String)
  | call (callee : Option String)
  | strLit (value : String)
  | arrayLit (elems : List DecoratorArg)
  | other

/-- A decorator as seen through getDecoratorName / getDecoratorArguments:
name is none when the decorator expression is neither an identifier nor a
call of an identifier; args is empty unless the expression is a call. -/
structure Decorator where
  name : Option String
  args : List DecoratorArg

/-- getStringLiteralValue of source-file-loader.ts on a decorator argument. -/
def getStringLiteralValue : DecoratorArg → Option String
  | .strLit v => some v
  | _ => none

/-- getArrayLiteralElements of source-file-loader.ts on a decorator argument. -/
def getArrayLiteralElements : DecoratorArg → List DecoratorArg
  | .arrayLit es => es
  | _ => []

/-- PUBLIC_DECORATORS of nestjs-auth-extractor.ts. -/
def publicDecorators : List String :=
  ["Public", "AllowAnonymous", "SkipAuth", "NoAuth", "IsPublic"]

/-- ROLE_DECORATORS of nestjs-auth-extractor.ts. -/
def roleDecorators : List String := ["Roles", "RequireRoles", "HasRoles", "Authorize"]

/-- POLICY_DECORATORS of nestjs-auth-extractor.ts. -/
def policyDecorators : List String := ["Policies", "RequirePolicies", "CheckPolicies"]

/-- NestJSAuthExtractor.isAuthGuard: AUTH_GUARD_PATTERNS are six unanchored
case-insensitive regexes, i.e. lowercase substring tests. -/
def isAuthGuard (guardName : String) : Bool :=
  let l := strLower guardName
  strIncludes l "authguard" || strIncludes l "jwtauthguard" ||
  strIncludes l "localauthguard" || strIncludes l "sessionguard" ||
  strIncludes l "bearerguard" || strIncludes l "tokenguard"

/-- NestJSAuthContext of nestjs-auth-extractor.ts. -/
structure NestJSAuthContext where
  classGuards : Option (List String)
  classRoles : Option (List String)
  isPublic : Option Bool
deriving DecidableEq, Repr

/-- One UseGuards argument in NestJSAuthExtractor.processDecorator: an
identifier or a call of an identifier pushes the guard name (always), and
sets isAuthenticated when the name matches an auth-guard pattern. -/
def processGuardArg (auth : AuthorizationInfo) (arg : DecoratorArg) :
    AuthorizationInfo :=
  match arg with
  | .ident t =>
    let auth := if isAuthGuard t then { auth with isAuthenticated := true } else auth
    { auth with guardNames := auth.guardNames ++ [t] }
  | .call (some t) =>
    let auth := if isAuthGuard t then { auth with isAuthenticated := true } else auth
    { auth with guardNames := auth.guardNames ++ [t] }
  | _ => auth

/-- One Roles-decorator argument: a string literal or every string literal
of an array literal is appended to roles, each forcing isAuthenticated. -/
def processRoleArg (auth : AuthorizationInfo) (arg : DecoratorArg) :
    AuthorizationInfo :=
  let auth := match getStringLiteralValue arg with
    | some v => { auth with roles := auth.roles ++ [v], isAuthenticated := true }
    | none => auth
  (getArrayLiteralElements arg).foldl
    (fun a e => match getStringLiteralValue e with
      | some v => { a with roles := a.roles ++ [v], isAuthenticated := true }
      | none => a) auth

/-- One Policies-decorator argument, handled like a role argument but into
policies. -/
def processPolicyArg (auth : AuthorizationInfo) (arg : DecoratorArg) :
    AuthorizationInfo :=
  let auth := match getStringLiteralValue arg with
    | some v => { auth with policies := auth.policies ++ [v], isAuthenticated := true }
    | none => auth
  (getArrayLiteralElements arg).foldl
    (fun a e => match getStringLiteralValue e with
      | some v => { a with policies := a.policies ++ [v], isAuthenticated := true }
      | none => a) auth

/-- NestJSAuthExtractor.processDecorator. -/
def processDecorator (auth : AuthorizationInfo) (d : Decorator) :
    AuthorizationInfo :=
  match d.name with
  | none => auth
  | some name =>
    if publicDecorators.contains name then { auth with isExplicitlyPublic := true }
    else if name = "UseGuards" then d.args.foldl processGuardArg auth
    else if roleDecorators.contains name then d.args.foldl processRoleArg auth
    else if policyDecorators.contains name then d.args.foldl processPolicyArg auth
    else auth

/-- NestJSAuthExtractor.extract: class-level guards (pushed only when they
match an auth-guard pattern), class roles, class public flag, then the
method decorators in order, then the method-level public override that
leaves isAuthenticated untouched, and finally the shared classification. -/
def nestExtract (decorators : List Decorator) (context : Option NestJSAuthContext) :
    AuthorizationInfo :=
  let auth := createDefaultAuthorizationInfo
  let auth := match context with
    | some ctx =>
      let auth := match ctx.classGuards with
        | some gs => gs.foldl
            (fun a guard =>
              if isAuthGuard guard then
                { a with isAuthenticated := true, guardNames := a.guardNames ++ [guard] }
              else a) auth
        | none => auth
      let auth := match ctx.classRoles with
        | some rs =>
          let a := { auth with roles := auth.roles ++ rs }
          if rs.length > 0 then { a with isAuthenticated := true } else a
        | none => auth
      match ctx.isPublic with
      | some true => { auth with isExplicitlyPublic := true }
      | _ => auth
    | none => auth
  let auth := decorators.foldl processDecorator auth
  let hasMethodPublic := decorators.any (fun d =>
    match d.name with
    | some n => publicDecorators.contains n
    | none => false)
  let auth := if hasMethodPublic then { auth with isExplicitlyPublic := true } else auth
  { auth with classification := determineClassification auth }

/-- Build the C4/C8 NestJS endpoint around an extracted authorization. -/
def nestEndpoint (route : String) (method : HttpMethod) (auth : AuthorizationInfo) :
    Endpoint where
  route := route
  method := method
  handlerName := "handler"
  controllerName := some "AppController"
  type := .NestJS
  location := ⟨"app.controller.ts", 1, 1⟩
  authorization := auth

/-- C4: a NestJS method of a class whose UseGuards decorator registered an
auth guard (class context guards = [g], isAuthGuard g) and which itself
carries a public-marker decorator extracts isExplicitlyPublic = true with
isAuthenticated still true, classification Authenticated, and the full rule
catalogue on this GET endpoint fires exactly AP003 with Medium severity,
whatever the route: AP001, AP004 and AP008 stay silent because the
classification is not Public. -/
theorem nest_public_over_class_guard_conflict (g route : String)
    (hg : isAuthGuard g = true) :
    let auth := nestExtract [⟨some "Get", []⟩, ⟨some "Public", []⟩]
      (some ⟨some [g], none, none⟩)
    auth.isExplicitlyPublic = true ∧ auth.isAuthenticated = true ∧
    auth.classification = .Authenticated ∧
    (ruleEngineEvaluate defaultRules [nestEndpoint route .GET auth]).map
        (fun f => (f.ruleId, f.severity)) = [("AP003", .Medium)] := by
  have hext : nestExtract [⟨some "Get", []⟩, ⟨some "Public", []⟩]
      (some ⟨some [g], none, none⟩) =
      { isAuthenticated := true, isExplicitlyPublic := true, roles := [],
        policies := [], middlewareChain := [], guardNames := [g],
        classification := .Authenticated } := by
    simp [nestExtract, processDecorator, createDefaultAuthorizationInfo,
      publicDecorators, roleDecorators, policyDecorators, hg,
      determineClassification]
  refine ⟨?_, ?_, ?_, ?_⟩ <;>
    simp [hext, ruleEngineEvaluate, defaultRules, rulesFromConfig, allRules,
      ap001Evaluate, ap002Evaluate, ap003Evaluate, ap004Evaluate, ap005Evaluate,
      ap006Evaluate, ap007Evaluate, ap008Evaluate, nestEndpoint, createFinding,
      isWriteMethod, methodString]

/-- Witness for C4 at the concrete guard JwtAuthGuard and route /profile. -/
theorem nest_public_over_class_guard_conflict_witness :
    (let auth := nestExtract [⟨some "Get", []⟩, ⟨some "Public", []⟩]
      (some ⟨some ["JwtAuthGuard"], none, none⟩)
     auth.isExplicitlyPublic = true ∧ auth.isAuthenticated = true ∧
     auth.classification = .Authenticated ∧
     (ruleEngineEvaluate defaultRules [nestEndpoint "/profile" .GET auth]).map
        (fun f => (f.ruleId, f.severity)) = [("AP003", .Medium)]) :=
  nest_public_over_class_guard_conflict "JwtAuthGuard" "/profile" (by decide)

/-- C8: guard names are handled asymmetrically by level. For a guard name g
matching no auth-guard pattern: a method-level UseGuards(g) still appends g
to guardNames (isAuthenticated stays false), while a class-level guard g is
omitted from guardNames entirely. On an otherwise bare GET /items endpoint
this decides AP001 and AP008, which require guardNames to be empty: the
class-level variant fires both, the method-level variant fires neither. -/
theorem nest_guard_level_asymmetry (g : String) (hg : isAuthGuard g = false) :
    let methodAuth := nestExtract [⟨some "UseGuards", [.ident g]⟩] none
    let classAuth := nestExtract [] (some ⟨some [g], none, none⟩)
    methodAuth.guardNames = [g] ∧ methodAuth.isAuthenticated = false ∧
    classAuth.guardNames = [] ∧ classAuth.isAuthenticated = false ∧
    (ruleEngineEvaluate defaultRules [nestEndpoint "/items" .GET methodAuth]).map
        (fun f => f.ruleId) = [] ∧
    (ruleEngineEvaluate defaultRules [nestEndpoint "/items" .GET classAuth]).map
        (fun f => f.ruleId) = ["AP001", "AP008"] := by
  have hm : nestExtract [⟨some "UseGuards", [.ident g]⟩] none =
      { isAuthenticated := false, isExplicitlyPublic := false, roles := [],
        policies := [], middlewareChain := [], guardNames := [g],
        classification := .Public } := by
    simp [nestExtract, processDecorator, processGuardArg,
      createDefaultAuthorizationInfo, publicDecorators, roleDecorators,
      policyDecorators, hg, determineClassification]
  have hc : nestExtract [] (some ⟨some [g], none, none⟩) =
      createDefaultAuthorizationInfo := by
    simp [nestExtract, createDefaultAuthorizationInfo, hg, determineClassification]
  refine ⟨?_, ?_, ?_, ?_, ?_, ?_⟩ <;>
    simp [hm, hc, ruleEngineEvaluate, defaultRules, rulesFromConfig, allRules,
      ap001Evaluate, ap002Evaluate, ap003Evaluate, ap004Evaluate, ap005Evaluate,
      ap006Evaluate, ap007Evaluate, ap008Evaluate, nestEndpoint, createFinding,
      createDefaultAuthorizationInfo, isWriteMethod, methodString, strIncludes,
      strLower, sensitiveKeywords, listContainsSub, listIsPrefixOf, lowerCh]

/-- Witness for C8 at the concrete non-auth guard name RolesGuard. -/
theorem nest_guard_level_asymmetry_witness :
    (let methodAuth := nestExtract [⟨some "UseGuards", [.ident "RolesGuard"]⟩] none
     let classAuth := nestExtract [] (some ⟨some ["RolesGuard"], none, none⟩)
     methodAuth.guardNames = ["RolesGuard"] ∧ methodAuth.isAuthenticated = false ∧
     classAuth.guardNames = [] ∧ classAuth.isAuthenticated = false ∧
     (ruleEngineEvaluate defaultRules [nestEndpoint "/items" .GET methodAuth]).map
        (fun f => f.ruleId) = [] ∧
     (ruleEngineEvaluate defaultRules [nestEndpoint "/items" .GET classAuth]).map
        (fun f => f.ruleId) = ["AP001", "AP008"]) :=
  nest_guard_level_asymmetry "RolesGuard" (by decide)

/-- RouteGroup of route-group-registry.ts (`prefix` is named pfx here). -/
structure RouteGroup where
  pfx : String
  middlewares : List String
  variableName : String
  filePath : String
deriving DecidableEq, Repr

/-- One registered router mount: the mount prefix and the mounted router's
identifier. -/
structure RouterMount where
  pfx : String
  routerName : String
deriving DecidableEq, Repr

/-- RouteGroupRegistry state: two insertion-ordered maps keyed by the
"file::variable" string, each holding the values pushed under that key. -/
structure RouteGroupRegistry where
  groups : List (String × List RouteGroup)
  routerMounts : List (String × List RouterMount)
deriving DecidableEq, Repr

/-- RouteGroupRegistry.makeKey. -/
def makeKey (filePath variableName : String) : String :=
  filePath ++ "::" ++ variableName

/-- Push a value under a key of an insertion-ordered map: appended to the
existing entry, or a new entry appended at the end (JS Map semantics). -/
def mapPush {α : Type} (m : List (String × List α)) (k : String) (v : α) :
    List (String × List α) :=
  match m with
  | [] => [(k, [v])]
  | (k', vs) :: rest =>
    if k' = k then (k', vs ++ [v]) :: rest else (k', vs) :: mapPush rest k v

/-- Find the value list stored under a key. -/
def mapFind {α : Type} : List (String × List α) → String → Option (List α)
  | [], _ => none
  | (k', vs) :: rest, k => if k' = k then some vs else mapFind rest k

/-- RouteGroupRegistry.registerGroup. -/
def registerGroup (reg : RouteGroupRegistry) (filePath variableName pfx : String)
    (middlewares : List String) : RouteGroupRegistry :=
  { reg with groups := (mapPush reg.groups (makeKey filePath variableName)
      ⟨pfx, middlewares, variableName, filePath⟩) }

/-- RouteGroupRegistry.registerRouterMount. -/
def registerRouterMount (reg : RouteGroupRegistry)
    (filePath appVariableName pfx routerName : String) : RouteGroupRegistry :=
  { reg with routerMounts := (mapPush reg.routerMounts
      (makeKey filePath appVariableName) ⟨pfx, routerName⟩) }

/-- RouteGroupRegistry.getGroup: the last group registered under the
(file, variable) key. -/
def getGroup (reg : RouteGroupRegistry) (filePath variableName : String) :
    Option RouteGroup :=
  match mapFind reg.groups (makeKey filePath variableName) with
  | some gs => gs.getLast?
  | none => none

/-- The scan of RouteGroupRegistry.getRouterPrefix over every entry of the
routerMounts map, in insertion order, first match by routerName. -/
def scanMounts : List (String × List RouterMount) → String → Option String
  | [], _ => none
  | (_, ms) :: rest, routerName =>
    match ms.find? (fun m => m.routerName = routerName) with
    | some m => some m.pfx
    | none => scanMounts rest routerName

/-- RouteGroupRegistry.getRouterPrefix: the filePath parameter is accepted
but never read by the body; a missing match yields the empty string. -/
def getRouterPfx (reg : RouteGroupRegistry) (filePath routerName : String) :
    String :=
  let _ := filePath
  match scanMounts reg.routerMounts routerName with
  | some pfx => pfx
  | none => ""

/-- RouteGroupRegistry.getAllMiddlewares. -/
def getAllMiddlewares (reg : RouteGroupRegistry) (filePath variableName : String) :
    List String :=
  match getGroup reg filePath variableName with
  | some g => g.middlewares
  | none => []

theorem scanMounts_eq_none (mounts : List (String × List RouterMount)) (r : String)
    (h : ∀ p ∈ mounts, ∀ m ∈ p.2, m.routerName ≠ r) :
    scanMounts mounts r = none := by
  induction mounts with
  | nil => rfl
  | cons p rest ih =>
    obtain ⟨k, ms⟩ := p
    rw [scanMounts]
    have hfind : ms.find? (fun m => m.routerName = r) = none := by
      rw [List.find?_eq_none]
      intro m hm
      have := h (k, ms) (by simp) m hm
      simpa using this
    rw [hfind]
    exact ih (fun p hp m hm => h p (List.mem_cons_of_mem _ hp) m hm)

theorem scanMounts_some_spec (mounts : List (String × List RouterMount)) (r : String)
    (pfx : String) (h : scanMounts mounts r = some pfx) :
    ∃ p ∈ mounts, ∃ m ∈ p.2, m.routerName = r ∧ m.pfx = pfx := by
  induction mounts with
  | nil => simp [scanMounts] at h
  | cons p rest ih =>
    obtain ⟨k, ms⟩ := p
    rw [scanMounts] at h
    cases hfind : ms.find? (fun m => m.routerName = r) with
    | some m =>
      rw [hfind] at h
      refine ⟨(k, ms), by simp, m, List.mem_of_find?_eq_some hfind, ?_, by
        simpa using h⟩
      have := List.find?_some hfind
      simpa using this
    | none =>
      rw [hfind] at h
      obtain ⟨p', hp', m, hm, hr, hpfx⟩ := ih h
      exact ⟨p', List.mem_cons_of_mem _ hp', m, hm, hr, hpfx⟩

theorem scanMounts_isSome (mounts : List (String × List RouterMount)) (r : String)
    (p : String × List RouterMount) (m : RouterMount)
    (hp : p ∈ mounts) (hm : m ∈ p.2) (hr : m.routerName = r) :
    (scanMounts mounts r).isSome = true := by
  induction mounts with
  | nil => simp at hp
  | cons q rest ih =>
    obtain ⟨k, ms⟩ := q
    rw [scanMounts]
    cases hfind : ms.find? (fun mm => mm.routerName = r) with
    | some _ => simp
    | none =>
      rcases List.mem_cons.mp hp with heq | hmem
      · subst heq
        have := List.find?_eq_none.mp hfind m hm
        simp [hr] at this
      · exact ih hmem

/-- C6: getRouterPrefix ignores the requesting file entirely — for every
registry state the result is the same for any two file arguments; when no
registered mount's router identifier equals r it returns "" (no error);
when the scan yields a prefix, that prefix belongs to a mount registered
for r under some key, whichever file made the registration; and
getAllMiddlewares of a key with no registered group returns []. -/
theorem registry_lookup_file_independent :
    (∀ (reg : RouteGroupRegistry) (f1 f2 r : String),
      getRouterPfx reg f1 r = getRouterPfx reg f2 r) ∧
    (∀ (reg : RouteGroupRegistry) (f r : String),
      (∀ p ∈ reg.routerMounts, ∀ m ∈ p.2, m.routerName ≠ r) →
        getRouterPfx reg f r = "") ∧
    (∀ (reg : RouteGroupRegistry) (f r : String)
      (p : String × List RouterMount) (m : RouterMount),
      p ∈ reg.routerMounts → m ∈ p.2 → m.routerName = r →
        ∃ p' ∈ reg.routerMounts, ∃ m' ∈ p'.2, m'.routerName = r ∧
          getRouterPfx reg f r = m'.pfx) ∧
    (∀ (reg : RouteGroupRegistry) (f v : String),
      mapFind reg.groups (makeKey f v) = none → getAllMiddlewares reg f v = []) := by
  refine ⟨fun reg f1 f2 r => rfl, ?_, ?_, ?_⟩
  · intro reg f r h
    rw [getRouterPfx, scanMounts_eq_none reg.routerMounts r h]
  · intro reg f r p m hp hm hr
    have hs := scanMounts_isSome reg.routerMounts r p m hp hm hr
    cases hscan : scanMounts reg.routerMounts r with
    | none => rw [hscan] at hs; simp at hs
    | some pfx =>
      obtain ⟨p', hp', m', hm', hr', hpfx⟩ := scanMounts_some_spec _ _ _ hscan
      exact ⟨p', hp', m', hm', hr', by rw [getRouterPfx, hscan, hpfx]⟩
  · intro reg f v h
    rw [getAllMiddlewares, getGroup, h]

/-- SuppressionConfig of src/core/suppression/config-loader.ts. -/
structure SuppressionConfig where
  ruleId : Option String
  route : Option String
  routePattern : Option String
  method : Option String
  reason : String
deriving DecidableEq, Repr

/-- JS truthiness of an optional string field: present and non-empty. -/
def jsTruthy : Option String → Bool
  | some s => s ≠ ""
  | none => false

/-- JS String.toUpperCase restricted to its ASCII effect. -/
def upperCh (c : Char) : Char :=
  if 97 ≤ c.toNat ∧ c.toNat ≤ 122 then Char.ofNat (c.toNat - 32) else c

/-- Uppercase a whole string. -/
def strUpper (s : String) : String := .mk (s.data.map upperCh)

/-- The marker the glob translation uses for a doubled star. -/
def dstarMarker : List Char := "<<<DOUBLE_STAR>>>".data

/-- Strip a literal needle from the front of a list, when present. -/
def stripPre : List Char → List Char → Option (List Char)
  | [], l => some l
  | _ :: _, [] => none
  | a :: as, b :: bs => if a = b then stripPre as bs else none

/-- JS `hay.replace(needleRegex, repl)` for a literal non-empty needle with
the g flag: non-overlapping left-to-right replacement, the replacement text
not rescanned. The fuel argument only bounds the recursion: every step
consumes at least one input character, so fuel = input length always
suffices and the fuel-exhausted branch is unreachable from replAll. -/
def replAllFuel (needle repl : List Char) : Nat → List Char → List Char
  | 0, l => l
  | _ + 1, [] => []
  | fuel + 1, c :: rest =>
    match needle, stripPre needle (c :: rest) with
    | _ :: _, some remaining => repl ++ replAllFuel needle repl fuel remaining
    | _, _ => c :: replAllFuel needle repl fuel rest

/-- The replacement entry point. -/
def replAll (needle repl l : List Char) : List Char :=
  replAllFuel needle repl l.length l

/-- The character class of the escape step
`replace(/[.+^${}()|[\]\\]/g, '\\$&')`. -/
def regexEscapeSet : List Char :=
  ['.', '+', '^', '$', Char.ofNat 123, Char.ofNat 125, '(', ')', '|', '[', ']',
   Char.ofNat 92]

/-- The escape step: each character of the set gets a backslash before it. -/
def escapeRegexChars (l : List Char) : List Char :=
  l.flatMap (fun c => if regexEscapeSet.contains c then [bslc, c] else [c])

/-- A token of the regexes the glob translation can produce: a literal
character, a starred literal, or an optional literal. -/
inductive RegexTok where
  | lit (c : Char)
  | star (c : Char)
  | opt (c : Char)

/-- Unescaped characters that would carry regex meaning; escaped ones become
plain literals. -/
def regexMetaChars : List Char :=
  ['.', '+', '^', '$', '(', ')', '|', '[', ']', Char.ofNat 123, Char.ofNat 125]

/-- Parse the translated pattern body into tokens. A quantifier with no
literal before it is rejected (JS RegExp also rejects `a**`; the corner
cases JS accepts, such as a quantified anchor, cannot arise from the
translation of a route glob and are mapped to a failed parse, which the
caller treats as no-match exactly like a thrown RegExp error). A second `?`
after a quantifier is JS laziness and changes nothing for an anchored
match. -/
def parseRegexFuel : Nat → List Char → List RegexTok → Option (List RegexTok)
  | _, [], acc => some acc.reverse
  | 0, _ :: _, _ => none
  | fuel + 1, c :: rest, acc =>
    if c = bslc then
      match rest with
      | [] => none
      | d :: rest2 => parseRegexFuel fuel rest2 (.lit d :: acc)
    else if c = '*' then
      match acc with
      | .lit d :: acc2 => parseRegexFuel fuel rest (.star d :: acc2)
      | _ => none
    else if c = '?' then
      match acc with
      | .lit d :: acc2 => parseRegexFuel fuel rest (.opt d :: acc2)
      | .star _ :: _ => parseRegexFuel fuel rest acc
      | .opt _ :: _ => parseRegexFuel fuel rest acc
      | _ => none
    else if regexMetaChars.contains c then none
    else parseRegexFuel fuel rest (.lit c :: acc)

/-- Parse entry point: each step consumes at least one character, so fuel =
input length suffices. -/
def parseRegex (l : List Char) : Option (List RegexTok) :=
  parseRegexFuel l.length l []

/-- Anchored matching of a token list against a string: the `^...$` wrapper
the code adds makes `test` a whole-string match. -/
def matchToksFuel : Nat → List RegexTok → List Char → Bool
  | 0, _, _ => false
  | _ + 1, [], [] => true
  | _ + 1, [], _ :: _ => false
  | _ + 1, .lit _ :: _, [] => false
  | fuel + 1, .lit c :: ts, d :: ds => c = d && matchToksFuel fuel ts ds
  | fuel + 1, .opt _ :: ts, [] => matchToksFuel fuel ts []
  | fuel + 1, .opt c :: ts, d :: ds =>
    matchToksFuel fuel ts (d :: ds) || (c = d && matchToksFuel fuel ts ds)
  | fuel + 1, .star _ :: ts, [] => matchToksFuel fuel ts []
  | fuel + 1, .star c :: ts, d :: ds =>
    matchToksFuel fuel ts (d :: ds) ||
      (c = d && matchToksFuel fuel (.star c :: ts) ds)

/-- Matching entry point: every recursive step shortens the token list or
the string, so their combined length bounds the recursion depth. -/
def matchToks (ts : List RegexTok) (s : List Char) : Bool :=
  matchToksFuel (ts.length + s.length + 1) ts s

/-- SuppressionMatcher.matchesRoutePattern: substitute `**` via a marker,
substitute `*`, restore the marker as `.*`, escape regex specials (the
escape runs after the substitutions), anchor, and test; an uncompilable
pattern is no-match. -/
def matchesRoutePattern (pattern route : String) : Bool :=
  let p1 := replAll "**".data dstarMarker pattern.data
  let p2 := replAll "*".data "[^/]+".data p1
  let p3 := replAll dstarMarker ".*".data p2
  match parseRegex (escapeRegexChars p3) with
  | some toks => matchToks toks route.data
  | none => false

/-- SuppressionMatcher.matchesEndpoint: a conjunction over whichever filters
are present (JS truthiness). -/
def matchesEndpointSup (s : SuppressionConfig) (endpoint : Endpoint)
    (ruleId : String) : Bool :=
  if jsTruthy s.ruleId && (s.ruleId.getD "" != ruleId) then false
  else if jsTruthy s.method &&
      (strUpper (s.method.getD "") != methodString endpoint.method) then false
  else if jsTruthy s.route && (s.route.getD "" != endpoint.route) then false
  else if jsTruthy s.routePattern then
    matchesRoutePattern (s.routePattern.getD "") endpoint.route
  else true

/-- SuppressionMatcher.matchesFinding. -/
def matchesFindingSup (s : SuppressionConfig) (f : Finding) : Bool :=
  matchesEndpointSup s f.endpoint f.ruleId

/-- SuppressionMatcher.findMatchingSuppression: first match in list order. -/
def findMatchingSuppression (sups : List SuppressionConfig) (f : Finding) :
    Option SuppressionConfig :=
  sups.find? (fun s => matchesFindingSup s f)

/-- SuppressionMatcher.applySuppressionsToFindings. -/
def applySuppressionsToFindings (sups : List SuppressionConfig)
    (findings : List Finding) : List Finding :=
  findings.map (fun f =>
    match findMatchingSuppression sups f with
    | some s => { f with suppressed := true, suppressionReason := some s.reason }
    | none => f)

/-- C9: a suppression carrying only the mandatory reason (every optional
filter absent) matches every finding, so applySuppressionsToFindings marks
each finding of the run suppressed with that reason. -/
theorem blanket_suppression_marks_everything (reason : String)
    (findings : List Finding) :
    applySuppressionsToFindings [⟨none, none, none, none, reason⟩] findings =
      findings.map (fun f =>
        { f with suppressed := true, suppressionReason := some reason }) := by
  unfold applySuppressionsToFindings
  refine List.map_congr_left (fun f _ => ?_)
  rfl

/-- The fields of a finding the suppression pass may not change. -/
def findingCoreAgrees (o f : Finding) : Prop :=
  o.ruleId = f.ruleId ∧ o.ruleName = f.ruleName ∧ o.severity = f.severity ∧
  o.message = f.message ∧ o.endpoint = f.endpoint ∧ o.location = f.location

/-- C10: applySuppressionsToFindings pairs its output with its input
position by position (same length, same order); each output finding agrees
with its input on every field other than suppressed / suppressionReason,
and an input finding matched by no suppression comes back unchanged. -/
theorem suppression_is_frame_preserving (sups : List SuppressionConfig)
    (findings : List Finding) :
    (applySuppressionsToFindings sups findings).length = findings.length ∧
    List.Forall₂ (fun o f => findingCoreAgrees o f ∧
        ((∀ s ∈ sups, matchesFindingSup s f = false) → o = f))
      (applySuppressionsToFindings sups findings) findings := by
  constructor
  · simp [applySuppressionsToFindings]
  · unfold applySuppressionsToFindings
    induction findings with
    | nil => exact List.Forall₂.nil
    | cons f fs ih =>
      rw [List.map_cons]
      refine List.Forall₂.cons ⟨?_, ?_⟩ ih
      · cases h : findMatchingSuppression sups f <;>
          simp [h, findingCoreAgrees]
      · intro hnone
        have h : findMatchingSuppression sups f = none := by
          rw [findMatchingSuppression, List.find?_eq_none]
          intro s hs
          simp [hnone s hs]
        rw [h]

/-- C5 failing input: the glob translation escapes its own output, so the
pattern /api/* does not match /api/users, the pattern /api/** does not
match /api/a/b, and /api/* matches exactly the literal route text
"/api/[^/]+". -/
theorem routePattern_escaping_defeats_globs :
    matchesRoutePattern "/api/*" "/api/users" = false ∧
    matchesRoutePattern "/api/**" "/api/a/b" = false ∧
    matchesRoutePattern "/api/*" "/api/[^/]+" = true := by
  refine ⟨by decide, by decide, by decide⟩

/-- Split a character list at every occurrence of a separator, as JS
String.split with a single-character separator. -/
def splitOnCh (sep : Char) : List Char → List (List Char)
  | [] => [[]]
  | c :: rest =>
    let r := splitOnCh sep rest
    if c = sep then [] :: r
    else
      match r with
      | h :: t => (c :: h) :: t
      | [] => [[c]]

/-- JS String.trim. -/
def listTrim (l : List Char) : List Char :=
  ((l.dropWhile Char.isWhitespace).reverse.dropWhile Char.isWhitespace).reverse

/-- Is the character one of the two quote kinds of the role regex. -/
def isQuoteCh (c : Char) : Bool := c = sqc || c = dqc

/-- A character admitted by the capture class `[^'")\]]` of the role
regex. -/
def roleCapOk (c : Char) : Bool := !(c = sqc || c = dqc || c = ')' || c = ']')

/-- The attempt of the role regex `\(['"]?([^'")\]]+)['"]?\]` at one
opening parenthesis, `l` being the text after it. The first optional quote
is consumed greedily; when consumed, the backtracking alternative cannot
start the capture on the quote (quotes are excluded from the class), so it
never succeeds and is not modelled. Because every character the capture can
give back is outside the class ending the pattern, only the maximal capture
can be followed by `['"]?\]`, so the backtracking collapses to the three
checks below. -/
def roleArgMatchAt (l : List Char) : Option (List Char) :=
  let l1 := match l with
    | c :: rest => if isQuoteCh c then rest else l
    | [] => l
  let cap := l1.takeWhile roleCapOk
  if cap.isEmpty then none
  else
    match l1.drop cap.length with
    | ']' :: _ => some cap
    | c :: ']' :: _ => if isQuoteCh c then some cap else none
    | _ => none

/-- JS String.match with the role regex: the leftmost opening parenthesis
at which the attempt succeeds yields the capture. -/
def findRoleMatch : List Char → Option (List Char)
  | [] => none
  | '(' :: rest =>
    (match roleArgMatchAt rest with
     | some cap => some cap
     | none => findRoleMatch rest)
  | _ :: rest => findRoleMatch rest

/-- ExpressAuthExtractor's AUTH_MIDDLEWARE_PATTERNS applied through
matchesPatterns: the tested name is the part after the last dot, lowered;
all patterns are anchored whole-string matches except the
passport.authenticate prefix pattern. -/
def expressAuthPatternTest (name : List Char) : Bool :=
  let funcName := if name.contains '.' then (splitOnCh '.' name).getLast?.getD []
                  else name
  let low := funcName.map lowerCh
  listIsPrefixOf "passport.authenticate".data low ||
  low = "jwt".data || low = "expressjwt".data || low = "requireauth".data ||
  low = "ensureauthenticated".data || low = "isauthenticated".data ||
  low = "authenticate".data || low = "authmiddleware".data ||
  low = "checkauth".data || low = "verifytoken".data ||
  low = "validatetoken".data || low = "bearertoken".data ||
  low = "auth".data || low = "protected".data

/-- ExpressAuthExtractor.extractRolesFromMiddleware: regex capture split on
commas, trimmed and unquoted; otherwise the part after the last dot when it
is not itself an auth-middleware name; otherwise nothing. -/
def extractRolesFromMiddleware (middleware : String) : List String :=
  match findRoleMatch middleware.data with
  | some cap =>
    (splitOnCh ',' cap).map
      (fun r => .mk ((listTrim r).filter (fun c => !isQuoteCh c)))
  | none =>
    if middleware.data.contains '.' then
      let lastPart := (splitOnCh '.' middleware.data).getLast?.getD []
      if expressAuthPatternTest lastPart = false then [.mk lastPart] else []
    else []

/-- The middleware name requireRole('admin'). -/
def roleNameSingle : String :=
  .mk ("requireRole(".data ++ [sqc] ++ "admin".data ++ [sqc] ++ ")".data)

/-- The middleware name hasRole(['user', 'admin']). -/
def roleNameArray : String :=
  .mk ("hasRole([".data ++ [sqc] ++ "user".data ++ [sqc] ++ ", ".data ++
    [sqc] ++ "admin".data ++ [sqc] ++ "])".data)

/-- C7 failing inputs: the role regex demands a literal ']' right after the
(optionally quoted) capture, so neither requireRole('admin') nor
hasRole(['user', 'admin']) ever matches it — both extract no roles at all,
not ["admin"] / ["user", "admin"] — while the dotted fallback the claim
also describes does work (authorize.admin yields ["admin"]). -/
theorem call_shaped_role_extraction_empty :
    extractRolesFromMiddleware roleNameSingle = [] ∧
    extractRolesFromMiddleware roleNameArray = [] ∧
    extractRolesFromMiddleware "authorize.admin" = ["admin"] := by
  refine ⟨by decide, by decide, by decide⟩
